import Mathlib

/-!
Shallow embedding of the multiagent-loop pipeline (src/agent.py and
src/supervisor.py).

Python strings are modelled as Lean `String`.  The Python string
operations the source uses (`in`, `.upper()`, `.strip()`, `.split`,
`.join`) are modelled by the `py*` helpers below, which work on the
underlying character lists (ASCII case conversion, which is all the
source exercises on its marker strings).

Effectful parts of the source (the external `claude` subprocess, git
subprocess calls, file IO, console input) are modelled by passing their
observable outcomes in explicitly: the executor outcome as an
`ExecOutcome` record, the stream of role responses as functions
`Nat -> String` (the response returned by the k-th invocation of that
role), the git workspace as a `Repo` record, and raised Python
exceptions as the `Except.error` branch of a result type.
-/

/-- Python `needle in haystack` on lists of characters (substring test). -/
def subOccurs (needle : List Char) : List Char → Bool
  | [] => needle.isEmpty
  | c :: rest => needle.isPrefixOf (c :: rest) || subOccurs needle rest

/-- Python `needle in haystack` (substring containment) on strings. -/
def pyContains (haystack needle : String) : Bool :=
  subOccurs needle.data haystack.data

/-- Python `s.upper()` (ASCII uppercasing; the source only uppercases text
matched against ASCII marker strings). -/
def pyUpper (s : String) : String :=
  { data := s.data.map Char.toUpper }

/-- Python `s.split(chr(10))` on character lists: split at every newline,
keeping empty segments, with `[""]` for the empty string. -/
def splitLinesL : List Char → List (List Char)
  | [] => [[]]
  | c :: rest =>
    if c = '\n' then [] :: splitLinesL rest
    else
      match splitLinesL rest with
      | [] => [[c]]
      | l :: ls => (c :: l) :: ls

/-- Python `s.split(chr(10))` on strings. -/
def pySplitLines (s : String) : List String :=
  (splitLinesL s.data).map (fun l => { data := l })

/-- Python `(chr(10)).join(lines)` on character lists. -/
def joinLinesL : List (List Char) → List Char
  | [] => []
  | [l] => l
  | l :: ls => l ++ '\n' :: joinLinesL ls

/-- Python `(chr(10)).join(lines)` on strings. -/
def pyJoinLines (lines : List String) : String :=
  { data := joinLinesL (lines.map String.data) }

/-- Python `s.strip() == ""`: the string is empty or all whitespace. -/
def pyIsBlank (s : String) : Bool :=
  s.data.all Char.isWhitespace

/-- Python `s.strip()` on character lists. -/
def stripL (l : List Char) : List Char :=
  ((l.dropWhile Char.isWhitespace).reverse.dropWhile Char.isWhitespace).reverse

/-- Python `s.strip()`. -/
def pyStrip (s : String) : String :=
  { data := stripL s.data }

/-- Python `content.split(sep)` for a nonempty separator, scanning left to
right with non-overlapping matches.  The fuel argument is instantiated
with the content length, which suffices because each step consumes at
least one character. -/
def splitSegsFuel (sep : List Char) : Nat → List Char → List (List Char)
  | _, [] => [[]]
  | 0, content => [content]
  | fuel + 1, c :: rest =>
    if sep ≠ [] ∧ sep.isPrefixOf (c :: rest) = true then
      [] :: splitSegsFuel sep fuel ((c :: rest).drop sep.length)
    else
      match splitSegsFuel sep fuel rest with
      | [] => [[c]]
      | l :: ls => (c :: l) :: ls

/-- Python `content.split(sep)[-1]`: the segment after the last separator
occurrence (the whole content when the separator does not occur). -/
def pySplitLastSeg (content sep : String) : String :=
  { data := (splitSegsFuel sep.data content.data.length content.data).getLastD [] }

/-! ### agent.py: run_agent result handling (src/agent.py lines 419-464)

`run_agent` launches the external `claude` process, captures
`(stdout, stderr, returncode)`, strips stdout, optionally auto-commits
the role workspace (appending a note to the output when a commit
happened), and returns an error envelope exactly when the process exited
nonzero AND produced stderr text.  Every path returns a string; the
function is modelled as the total function below over the observable
process outcome. -/

/-- Observable outcome of one external executor invocation. -/
structure ExecOutcome where
  stdout : String
  stderr : String
  exitCode : Int

/-- The note appended to the output after a successful auto-commit
(src/agent.py line 456). -/
def commitNote (role : String) : String :=
  "\n\n[Committed changes to " ++ role ++ " branch]"

/-- The string returned by `run_agent` as a function of the executor
outcome, the `auto_commit` argument, the role permission `can_write`,
and whether `commit_agent_work` reported a commit
(src/agent.py lines 438-464). -/
def run_agent_result (role : String) (r : ExecOutcome)
    (autoCommit canWrite committed : Bool) : String :=
  let output := pyStrip r.stdout
  let output :=
    if autoCommit && canWrite && committed then output ++ commitNote role
    else output
  if r.exitCode ≠ 0 ∧ r.stderr ≠ "" then
    "Error: " ++ r.stderr ++ "\n\nOutput: " ++ output
  else output

/-! ### supervisor.py: verdict extraction (lines 400-403, 560-563, 649-657, 721-724) -/

/-- Planner confidence extraction (src/supervisor.py line 402). -/
def planner_confidence (response : String) : String :=
  if pyContains response "HIGH" then "HIGH"
  else if pyContains response "LOW" then "LOW"
  else "MEDIUM"

/-- Reviewer verdict extraction (src/supervisor.py line 562). -/
def reviewer_approved (response : String) : Bool :=
  pyContains response "APPROVED" && !pyContains response "NEEDS_CHANGES"

/-- Tester verdict extraction (src/supervisor.py line 651). -/
def tester_tests_passed (response : String) : Bool :=
  pyContains response "TESTS_PASSED" && !pyContains response "TESTS_FAILED"

/-- User verdict extraction (src/supervisor.py line 723). -/
def user_satisfied (response : String) : Bool :=
  pyContains response "SATISFIED" && !pyContains response "NEEDS_IMPROVEMENT"

/-! ### supervisor.py: escalation detection (lines 936-963) -/

/-- The escalation marker phrases (src/supervisor.py lines 938-944). -/
def escalation_markers : List String :=
  ["ESCALATE:", "QUESTION FOR HUMAN:", "NEED CLARIFICATION:", "STUCK:", "BLOCKED:"]

/-- Whether a line contains some escalation marker, after uppercasing
(src/supervisor.py line 953). -/
def lineHasMarker (line : String) : Bool :=
  escalation_markers.any (fun m => pyContains (pyUpper line) m)

/-- The capturing phase of the line scan: once capturing has started every
line is appended, and the scan stops at the first line that is blank
after at least one line has been captured (the blank line itself is
appended before the break; src/supervisor.py lines 954-958). -/
def captureFrom : List String → List String → List String
  | [], acc => acc
  | l :: rest, acc =>
    if pyIsBlank l = true ∧ 1 < (acc ++ [l]).length then acc ++ [l]
    else captureFrom rest (acc ++ [l])

/-- The line scan: skip lines until one contains a marker, then capture
from that line on (src/supervisor.py lines 949-958). -/
def scanFor : List String → List String
  | [] => []
  | l :: rest =>
    if lineHasMarker l = true then captureFrom (l :: rest) []
    else scanFor rest

/-- `check_for_escalation` (src/supervisor.py lines 936-963): when some
marker occurs in the uppercased output, the extracted message is the
captured lines joined with newlines; otherwise no escalation. -/
def check_for_escalation (agent_output : String) : Option String :=
  if escalation_markers.any (fun m => pyContains (pyUpper agent_output) m) = true then
    some (pyJoinLines (scanFor (pySplitLines agent_output)))
  else none

/-! ### supervisor.py: request_human_input (lines 966-1019) -/

/-- The escalation artifact content written by `request_human_input`
(src/supervisor.py lines 975-985).  The apostrophe of the heading is
spelled via its code point. -/
def escalation_file_content (agent_name message : String) : String :=
  "# Escalation from " ++ agent_name ++
  "\n\n## Agent" ++ { data := [Char.ofNat 39] } ++ "s Question/Issue\n\n" ++ message ++
  "\n\n## Human Response\n\n(Enter your response below)\n\n"

/-- The sentinel returned when no human response is found
(src/supervisor.py line 1019). -/
def no_response_sentinel : String :=
  "(No response provided - agent should proceed with best judgment)"

/-- The string returned by `request_human_input` as a function of the
joined console input lines and of the escalation file content at the
time it is re-read (src/supervisor.py lines 992-1019).  The console
response is returned if nonblank; otherwise the text after the last
`## Human Response` heading in the file is returned if nonblank after
stripping; otherwise the sentinel. -/
def request_human_input_result (consoleResponse fileContent : String) : String :=
  if pyStrip consoleResponse ≠ "" then consoleResponse
  else if pyContains fileContent "## Human Response" then
    let fileResponse := pyStrip (pySplitLastSeg fileContent "## Human Response")
    if fileResponse ≠ "" then fileResponse
    else no_response_sentinel
  else no_response_sentinel

/-! ### supervisor.py: run_iteration inner loops (lines 741-827)

The loops are driven by the verdicts extracted from the role responses.
The executor is modelled as response streams `reviewResponse k` /
`testResponse k`: the text produced by the k-th invocation of that role
inside the loop.  `loopA_go` / `loopB_go` recurse on the remaining
permitted passes (`fuel = max_inner_iterations - passes so far`), which
is exactly the guard `while inner_iteration < max_inner_iterations`. -/

/-- Loop A (implement/review, src/supervisor.py lines 760-789): returns
the number of implement/review round trips executed and the final
approval flag.  `attempt` counts completed passes so far. -/
def loopA_go (reviewResponse : Nat → String) : Nat → Nat → Nat × Bool
  | 0, _ => (0, false)
  | fuel + 1, attempt =>
    if reviewer_approved (reviewResponse (attempt + 1)) then (1, true)
    else
      ((loopA_go reviewResponse fuel (attempt + 1)).1 + 1,
       (loopA_go reviewResponse fuel (attempt + 1)).2)

/-- Loop A entered with `inner_iteration = 0`. -/
def loopA (reviewResponse : Nat → String) (maxInner : Nat) : Nat × Bool :=
  loopA_go reviewResponse maxInner 0

/-- Loop B (test / re-implement, src/supervisor.py lines 792-820): returns
(tester invocations, implementer re-invocations, final tests-passed
flag).  The implementer is re-run only on passes with
`tester_iteration > 1` (line 800). -/
def loopB_go (testResponse : Nat → String) : Nat → Nat → Nat × Nat × Bool
  | 0, _ => (0, 0, false)
  | fuel + 1, attempt =>
    if tester_tests_passed (testResponse (attempt + 1)) then
      (1, if 0 < attempt then 1 else 0, true)
    else
      ((loopB_go testResponse fuel (attempt + 1)).1 + 1,
       (loopB_go testResponse fuel (attempt + 1)).2.1 + (if 0 < attempt then 1 else 0),
       (loopB_go testResponse fuel (attempt + 1)).2.2)

/-- Loop B entered with `tester_iteration = 0`. -/
def loopB (testResponse : Nat → String) (maxInner : Nat) : Nat × Nat × Bool :=
  loopB_go testResponse maxInner 0

/-- Invocation counts and verdicts of one `run_iteration` call.
`implARuns` counts implementer runs inside loop A, `implBRuns` the
re-runs inside loop B. -/
structure IterationTrace where
  implARuns : Nat
  reviewerRuns : Nat
  approved : Bool
  implBRuns : Nat
  testerRuns : Nat
  testsPassed : Bool
  userRuns : Nat

/-- `run_iteration` (src/supervisor.py lines 741-827): one planner stage,
loop A, loop B, then one user stage.  Each loop A pass runs the
implementer and the reviewer exactly once, so both counts equal the
number of round trips.  With `max_inner_iterations = 0` both while
loops are skipped, so `results` never receives the `implementer` (or
`tester`) key and line 824 raises KeyError when building the user-stage
arguments, before the user stage runs; that error path is modelled as
`Except.error` (the bound is positive exactly when loop A runs at least
one pass).  For a positive bound every key is set and the user stage
runs exactly once. -/
def run_iteration_model (reviewResponse testResponse : Nat → String)
    (maxInner : Nat) : Except String IterationTrace :=
  match maxInner with
  | 0 => Except.error "KeyError: implementer"
  | m + 1 =>
    Except.ok
      { implARuns := (loopA reviewResponse (m + 1)).1
        reviewerRuns := (loopA reviewResponse (m + 1)).1
        approved := (loopA reviewResponse (m + 1)).2
        implBRuns := (loopB testResponse (m + 1)).2.1
        testerRuns := (loopB testResponse (m + 1)).1
        testsPassed := (loopB testResponse (m + 1)).2.2
        userRuns := 1 }

/-! ### supervisor.py: run_pipeline outer loop (lines 1022-1183) -/

/-- The outer iteration loop `for i in range(max_iterations)`
(src/supervisor.py lines 1063-1076): records the user verdict of each
executed iteration and breaks right after a satisfied verdict.
`userResponse k` is the user role response of iteration k. -/
def outerLoop_go (userResponse : Nat → String) : Nat → Nat → List Bool
  | 0, _ => []
  | fuel + 1, i =>
    if user_satisfied (userResponse (i + 1)) then [true]
    else false :: outerLoop_go userResponse fuel (i + 1)

/-- The outer loop entered at iteration index 0. -/
def outerLoop (userResponse : Nat → String) (maxIterations : Nat) : List Bool :=
  outerLoop_go userResponse maxIterations 0

/-- `run_pipeline` termination behaviour (src/supervisor.py lines
1063-1183): after the loop, line 1105 evaluates `all_results[-1]`, which
raises IndexError when no iteration ran (modelled as `Except.error`);
otherwise the run ends with status COMPLETE or INCOMPLETE, the number of
executed iterations, and the pipeline-level artifacts persisted on that
path (TASK.md at line 1057, FINAL_REPORT.md at line 1170; the error is
raised before FINAL_REPORT.md is written). -/
def run_pipeline_model (userResponse : Nat → String) (maxIterations : Nat) :
    Except String (String × Nat × List String) :=
  match (outerLoop userResponse maxIterations).getLast? with
  | none => Except.error "IndexError: list index out of range"
  | some last =>
    Except.ok
      ((if last then "COMPLETE" else "INCOMPLETE"),
       (outerLoop userResponse maxIterations).length,
       ["TASK.md", "FINAL_REPORT.md"])

/-! ### git checkpointing (src/supervisor.py lines 75-105, src/agent.py lines 267-284)

The workspace git repository is modelled by content maps (association
lists path -> content): `head` is the snapshot at the last commit,
`index` the staging area, `worktree` the working files, and `log` the
commit messages so far.  `git add -A` stages the whole worktree;
`git add dir/` replaces the staged entries under `dir/` with the
worktree entries under `dir/` (staging modifications, additions and
deletions under that directory); `git diff --cached --quiet` exits 0
exactly when the staged map equals the `head` map. -/

structure Repo where
  head : List (String × String)
  index : List (String × String)
  worktree : List (String × String)
  log : List String

/-- Content lookup in a map (first matching path wins). -/
def lookupFM : List (String × String) → String → Option String
  | [], _ => none
  | e :: rest, k => if e.1 = k then some e.2 else lookupFM rest k

/-- Whether a path lies under a directory pathspec such as `planner/`. -/
def underDir (dir path : String) : Bool :=
  dir.data.isPrefixOf path.data

/-- `git add -A` (src/supervisor.py line 86). -/
def stageAll (r : Repo) : Repo :=
  { r with index := r.worktree }

/-- `git add f` for a single file (src/supervisor.py line 84). -/
def stageFile (f : String) (r : Repo) : Repo :=
  { r with index :=
      (match lookupFM r.worktree f with
        | some v => [(f, v)]
        | none => []) ++ r.index.filter (fun e => !(e.1 == f)) }

/-- `git add dir/` (src/agent.py line 273). -/
def stageUnder (dir : String) (r : Repo) : Repo :=
  { r with index :=
      r.index.filter (fun e => !(underDir dir e.1)) ++
      r.worktree.filter (fun e => underDir dir e.1) }

/-- `git diff --cached --quiet` exits 0 iff the two maps agree; decided
over the mentioned keys (paths outside both maps agree vacuously). -/
def mapsEqB (a b : List (String × String)) : Bool :=
  (a.map Prod.fst ++ b.map Prod.fst).all (fun k => lookupFM a k == lookupFM b k)

/-- `git_commit` (src/supervisor.py lines 75-105): stage the given files,
or everything when `files` is None; return false without committing when
nothing staged differs from HEAD, otherwise commit and return true. -/
def git_commit (message : String) (files : Option (List String)) (r : Repo) :
    Bool × Repo :=
  let staged :=
    match files with
    | some fs => fs.foldl (fun acc f => stageFile f acc) r
    | none => stageAll r
  if mapsEqB staged.index staged.head then (false, staged)
  else (true, { staged with head := staged.index, log := staged.log ++ [message] })

/-- `commit_agent_work` (src/agent.py lines 267-284): stage the role
subdirectory, return false when nothing differs from HEAD, otherwise
commit with a role-tagged message and return true. -/
def commit_agent_work (role message : String) (r : Repo) : Bool × Repo :=
  let staged := stageUnder (role ++ "/") r
  if mapsEqB staged.index staged.head then (false, staged)
  else
    (true,
     { staged with
        head := staged.index
        log := staged.log ++ ["[" ++ role ++ "] " ++ message] })

/-! ## Basic lemmas about the string helpers -/

theorem isPrefixOf_append_left {n l : List Char} (b : List Char)
    (h : n.isPrefixOf l = true) : n.isPrefixOf (l ++ b) = true := by
  induction n generalizing l with
  | nil => simp
  | cons c cs ih =>
    cases l with
    | nil => simp [List.isPrefixOf] at h
    | cons d ds =>
      rw [List.cons_append]
      rw [List.isPrefixOf_cons₂] at h ⊢
      simp only [Bool.and_eq_true] at h ⊢
      exact ⟨h.1, ih h.2⟩

theorem subOccurs_nil_left (l : List Char) : subOccurs [] l = true := by
  cases l with
  | nil => rfl
  | cons c rest => simp [subOccurs]

theorem subOccurs_append_left {n a : List Char} (b : List Char)
    (h : subOccurs n a = true) : subOccurs n (a ++ b) = true := by
  induction a with
  | nil =>
    have hn : n = [] := List.isEmpty_iff.mp h
    subst hn
    exact subOccurs_nil_left b
  | cons c rest ih =>
    rw [subOccurs, Bool.or_eq_true] at h
    rw [List.cons_append, subOccurs, Bool.or_eq_true]
    rcases h with h | h
    · exact Or.inl (by rw [← List.cons_append]; exact isPrefixOf_append_left b h)
    · exact Or.inr (ih h)

theorem string_data_append (a b : String) : (a ++ b).data = a.data ++ b.data := by
  cases a; cases b; rfl

/-! ## Claim C1 -/

/-- Claim C1 as stated is false on the code: when the executor exits with
a nonzero code but empty stderr, `run_agent` returns the plain stripped
stdout, not an error envelope (src/agent.py line 458 requires nonempty
stderr as well). -/
theorem C1_counterexample :
    run_agent_result "planner"
        { stdout := "partial result", stderr := "", exitCode := 1 } true true false
      = "partial result" ∧
    "partial result" ≠ "Error: " ++ "" ++ "\n\nOutput: " ++ "partial result" := by
  constructor
  · rfl
  · decide

/-- Claim C1 (amended): `run_agent` always returns a string; whenever the
executor exits with a nonzero code AND nonempty stderr, the returned
string is the error envelope `Error: {stderr}\n\nOutput: {output}`,
which preserves the stripped partial stdout inside the output part. -/
theorem C1_error_envelope (role : String) (r : ExecOutcome)
    (autoCommit canWrite committed : Bool)
    (hcode : r.exitCode ≠ 0) (hstderr : r.stderr ≠ "") :
    ∃ out : String,
      run_agent_result role r autoCommit canWrite committed
        = "Error: " ++ r.stderr ++ "\n\nOutput: " ++ out ∧
      (pyStrip r.stdout).data <:+: out.data := by
  refine ⟨if autoCommit && canWrite && committed then pyStrip r.stdout ++ commitNote role
          else pyStrip r.stdout, ?_, ?_⟩
  · simp only [run_agent_result]
    rw [if_pos ⟨hcode, hstderr⟩]
  · cases h : autoCommit && canWrite && committed
    · simp [h, List.infix_refl]
    · simp only [h, if_pos]
      rw [string_data_append]
      exact (List.prefix_append _ _).isInfix

/-- Witness for C1_error_envelope at a concrete failing executor outcome. -/
theorem C1_error_envelope_witness :
    ∃ out : String,
      run_agent_result "planner" { stdout := "hi", stderr := "boom", exitCode := 1 }
          false false false
        = "Error: " ++ "boom" ++ "\n\nOutput: " ++ out ∧
      (pyStrip "hi").data <:+: out.data :=
  C1_error_envelope "planner" { stdout := "hi", stderr := "boom", exitCode := 1 }
    false false false (by decide) (by decide)

/-! ## Claim C2 -/

/-- Claim C2 as stated is false on the code: on a text with no recognized
verdict marker, the reviewer verdict is NOT treated as passing (it
evaluates to not-approved, which blocks), and likewise the tester verdict
evaluates to not-passed (src/supervisor.py lines 562 and 651 require the
positive marker to be present). -/
theorem C2_counterexample :
    pyContains "hello world" "APPROVED" = false ∧
    pyContains "hello world" "NEEDS_CHANGES" = false ∧
    reviewer_approved "hello world" = false ∧
    pyContains "hello world" "TESTS_PASSED" = false ∧
    pyContains "hello world" "TESTS_FAILED" = false ∧
    tester_tests_passed "hello world" = false := by
  decide

/-- Claim C2 (amended): on a role output with no recognized verdict
marker, ALL three extracted verdicts default to the failing side: the
reviewer verdict to not-approved (blocking), the tester verdict to
not-passed (blocking), and the user verdict to not-satisfied. -/
theorem C2_default_verdicts (t : String) :
    (pyContains t "APPROVED" = false → pyContains t "NEEDS_CHANGES" = false →
      reviewer_approved t = false) ∧
    (pyContains t "TESTS_PASSED" = false → pyContains t "TESTS_FAILED" = false →
      tester_tests_passed t = false) ∧
    (pyContains t "SATISFIED" = false → pyContains t "NEEDS_IMPROVEMENT" = false →
      user_satisfied t = false) := by
  refine ⟨fun h1 _ => ?_, fun h1 _ => ?_, fun h1 _ => ?_⟩ <;>
    simp [reviewer_approved, tester_tests_passed, user_satisfied, h1]

/-- Witness for C2_default_verdicts on a marker-free text. -/
theorem C2_default_verdicts_witness :
    reviewer_approved "no verdict here" = false ∧
    tester_tests_passed "no verdict here" = false ∧
    user_satisfied "no verdict here" = false := by
  have h := C2_default_verdicts "no verdict here"
  exact ⟨h.1 (by decide) (by decide), h.2.1 (by decide) (by decide),
         h.2.2 (by decide) (by decide)⟩

/-! ## Claim C6 -/

set_option maxRecDepth 20000 in
/-- Claim C6 is right about the intent but the code diverges: with no
console input and the escalation file left exactly as written, the
placeholder text after the `## Human Response` heading survives the
strip-and-nonempty check (src/supervisor.py lines 1013-1017), so
`request_human_input` returns the placeholder `(Enter your response
below)` instead of the no-response sentinel of line 1019. -/
theorem C6_unedited_placeholder :
    request_human_input_result ""
        (escalation_file_content "implementer" "BLOCKED: need the API key")
      = "(Enter your response below)" ∧
    ("(Enter your response below)" : String) ≠ no_response_sentinel := by
  constructor
  · decide
  · decide

/-! ## Claim C10 -/

/-- Claim C10: planner confidence is a fixed-priority substring
classification: HIGH wins whenever the substring HIGH occurs (even if
LOW also occurs), otherwise LOW when LOW occurs, otherwise MEDIUM
(src/supervisor.py line 402). -/
theorem C10_planner_confidence (t : String) :
    (pyContains t "HIGH" = true → planner_confidence t = "HIGH") ∧
    (pyContains t "HIGH" = false → pyContains t "LOW" = true →
      planner_confidence t = "LOW") ∧
    (pyContains t "HIGH" = false → pyContains t "LOW" = false →
      planner_confidence t = "MEDIUM") := by
  refine ⟨fun h1 => ?_, fun h1 h2 => ?_, fun h1 h2 => ?_⟩ <;>
    simp [planner_confidence, *]

/-- Witness for C10_planner_confidence on a response containing both
markers: HIGH takes priority. -/
theorem C10_planner_confidence_witness :
    pyContains "confidence LOW or HIGH" "HIGH" = true ∧
    pyContains "confidence LOW or HIGH" "LOW" = true ∧
    planner_confidence "confidence LOW or HIGH" = "HIGH" :=
  ⟨by decide, by decide, (C10_planner_confidence "confidence LOW or HIGH").1 (by decide)⟩

/-! ## Lemmas about the inner and outer loops -/

theorem loopA_go_fst_le (rev : Nat → String) :
    ∀ fuel attempt, (loopA_go rev fuel attempt).1 ≤ fuel := by
  intro fuel
  induction fuel with
  | zero => intro a; simp [loopA_go]
  | succ f ih =>
    intro a
    cases hr : reviewer_approved (rev (a + 1)) with
    | true => simp [loopA_go, hr]
    | false =>
      simp only [loopA_go, hr, Bool.false_eq_true, if_false]
      have := ih (a + 1)
      omega

theorem loopB_go_fst_le (tst : Nat → String) :
    ∀ fuel attempt, (loopB_go tst fuel attempt).1 ≤ fuel := by
  intro fuel
  induction fuel with
  | zero => intro a; simp [loopB_go]
  | succ f ih =>
    intro a
    cases ht : tester_tests_passed (tst (a + 1)) with
    | true => simp [loopB_go, ht]
    | false =>
      simp only [loopB_go, ht, Bool.false_eq_true, if_false]
      have := ih (a + 1)
      omega

theorem loopB_go_fst_pos (tst : Nat → String) (f a : Nat) :
    1 ≤ (loopB_go tst (f + 1) a).1 := by
  cases ht : tester_tests_passed (tst (a + 1)) with
  | true => simp [loopB_go, ht]
  | false =>
    simp only [loopB_go, ht, Bool.false_eq_true, if_false]
    omega

theorem loopB_go_ic_eq (tst : Nat → String) :
    ∀ fuel a, 0 < a → (loopB_go tst fuel a).2.1 = (loopB_go tst fuel a).1 := by
  intro fuel
  induction fuel with
  | zero => intro a _; rfl
  | succ f ih =>
    intro a ha
    cases ht : tester_tests_passed (tst (a + 1)) with
    | true => simp [loopB_go, ht, ha]
    | false =>
      simp only [loopB_go, ht, Bool.false_eq_true, if_false, if_pos ha]
      have := ih (a + 1) (by omega)
      omega

theorem loopB_go_ic_zero (tst : Nat → String) (fuel : Nat) :
    (loopB_go tst fuel 0).2.1 = (loopB_go tst fuel 0).1 - 1 := by
  cases fuel with
  | zero => rfl
  | succ f =>
    cases ht : tester_tests_passed (tst 1) with
    | true => simp [loopB_go, ht]
    | false =>
      simp only [loopB_go, ht, Bool.false_eq_true, if_false, Nat.lt_irrefl, if_neg]
      have := loopB_go_ic_eq tst f 1 (by omega)
      simp only [Nat.zero_add] at *
      omega

theorem loopB_go_first_pass (tst : Nat → String) (f : Nat)
    (h : tester_tests_passed (tst 1) = true) :
    loopB_go tst (f + 1) 0 = (1, 0, true) := by
  simp [loopB_go, h]

theorem outerLoop_go_length_le (u : Nat → String) :
    ∀ fuel i, (outerLoop_go u fuel i).length ≤ fuel := by
  intro fuel
  induction fuel with
  | zero => intro i; simp [outerLoop_go]
  | succ f ih =>
    intro i
    cases hu : user_satisfied (u (i + 1)) with
    | true => simp [outerLoop_go, hu]
    | false =>
      simp only [outerLoop_go, hu, Bool.false_eq_true, if_false, List.length_cons]
      have := ih (i + 1)
      omega

theorem outerLoop_go_ne_nil (u : Nat → String) (f i : Nat) :
    outerLoop_go u (f + 1) i ≠ [] := by
  cases hu : user_satisfied (u (i + 1)) with
  | true => simp [outerLoop_go, hu]
  | false => simp [outerLoop_go, hu]

theorem outerLoop_go_first_sat (u : Nat → String) :
    ∀ k fuel i, k < fuel →
      (∀ j, j < k → user_satisfied (u (i + j + 1)) = false) →
      user_satisfied (u (i + k + 1)) = true →
      outerLoop_go u fuel i = List.replicate k false ++ [true] := by
  intro k
  induction k with
  | zero =>
    intro fuel i hk _ hsat
    cases fuel with
    | zero => omega
    | succ f =>
      simp only [Nat.add_zero] at hsat
      simp [outerLoop_go, hsat]
  | succ k ih =>
    intro fuel i hk hstop hsat
    cases fuel with
    | zero => omega
    | succ f =>
      have h0 : user_satisfied (u (i + 1)) = false := by
        have := hstop 0 (by omega)
        simpa using this
      simp only [outerLoop_go, h0, Bool.false_eq_true, if_false]
      have hrec : outerLoop_go u f (i + 1) = List.replicate k false ++ [true] := by
        apply ih f (i + 1) (by omega)
        · intro j hj
          have := hstop (j + 1) (by omega)
          have hidx : i + (j + 1) + 1 = i + 1 + j + 1 := by omega
          rw [hidx] at this
          exact this
        · have hidx : i + (k + 1) + 1 = i + 1 + k + 1 := by omega
          rw [hidx] at hsat
          exact hsat
      rw [hrec]
      simp [List.replicate_succ]

/-! ## Claim C3 -/

/-- Claim C3: within one `run_iteration` with positive bound
`max_inner_iterations = n` (every call site uses the default 3; with
bound 0 the source instead crashes at supervisor.py line 824, the
`Except.error` branch of the model), the iteration completes without
error, loop A executes at most n implement/review round trips, loop B
at most n tester passes, the tester stage runs at least once even when
the review bound was exhausted without approval, and the user stage
runs exactly once — the pipeline proceeds rather than blocking. -/
theorem C3_inner_loop_bounds (rev tst : Nat → String) (n : Nat) (hn : 1 ≤ n) :
    ∃ tr, run_iteration_model rev tst n = Except.ok tr ∧
      tr.implARuns ≤ n ∧ tr.reviewerRuns ≤ n ∧ tr.testerRuns ≤ n ∧
      1 ≤ tr.testerRuns ∧ tr.userRuns = 1 := by
  cases n with
  | zero => omega
  | succ m =>
    refine ⟨_, rfl, ?_, ?_, ?_, ?_, rfl⟩
    · exact loopA_go_fst_le rev (m + 1) 0
    · exact loopA_go_fst_le rev (m + 1) 0
    · exact loopB_go_fst_le tst (m + 1) 0
    · exact loopB_go_fst_pos tst m 0

/-- Witness for C3_inner_loop_bounds: review never approves and tests
fail every time, with bound 3; the iteration completes, counts stay
within 3, and the user stage still runs. -/
theorem C3_inner_loop_bounds_witness :
    ∃ tr, run_iteration_model (fun _ => "NEEDS_CHANGES") (fun _ => "TESTS_FAILED") 3
        = Except.ok tr ∧
      tr.implARuns ≤ 3 ∧ tr.reviewerRuns ≤ 3 ∧ tr.testerRuns ≤ 3 ∧
      1 ≤ tr.testerRuns ∧ tr.userRuns = 1 :=
  C3_inner_loop_bounds (fun _ => "NEEDS_CHANGES") (fun _ => "TESTS_FAILED") 3 (by omega)

/-! ## Claim C9 -/

/-- Claim C9: for every trace a completing `run_iteration` with bound n
returns, loop B invoked the tester up to n times but re-invoked the
implementer exactly one time fewer than the tester count (hence at most
n - 1 times): the first tester pass runs directly on the implementation
left by loop A with no fresh implementer run, and in particular when
the first test verdict passes, the tester ran once and the implementer
was never re-run. -/
theorem C9_loopB_impl_runs (rev tst : Nat → String) (n : Nat)
    (tr : IterationTrace)
    (heq : run_iteration_model rev tst n = Except.ok tr) :
    tr.implBRuns = tr.testerRuns - 1 ∧
    tr.implBRuns ≤ n - 1 ∧
    (tester_tests_passed (tst 1) = true →
      tr.testerRuns = 1 ∧ tr.implBRuns = 0) := by
  cases n with
  | zero => simp [run_iteration_model] at heq
  | succ m =>
    simp only [run_iteration_model, Except.ok.injEq] at heq
    subst heq
    refine ⟨loopB_go_ic_zero tst (m + 1), ?_, fun hp => ?_⟩
    · have h1 := loopB_go_ic_zero tst (m + 1)
      have h2 := loopB_go_fst_le tst (m + 1) 0
      simp only [loopB] at *
      omega
    · have hfp := loopB_go_first_pass tst m hp
      constructor
      · simp [loopB, hfp]
      · simp [loopB, hfp]

/-- Witness for C9_loopB_impl_runs with tests passing on the first try:
the iteration returns the concrete trace with one tester run and no
implementer re-run. -/
theorem C9_loopB_impl_runs_witness :
    ({ implARuns := 1, reviewerRuns := 1, approved := true, implBRuns := 0,
       testerRuns := 1, testsPassed := true, userRuns := 1 } : IterationTrace).testerRuns
      = 1 ∧
    ({ implARuns := 1, reviewerRuns := 1, approved := true, implBRuns := 0,
       testerRuns := 1, testsPassed := true, userRuns := 1 } : IterationTrace).implBRuns
      = 0 :=
  (C9_loopB_impl_runs (fun _ => "APPROVED") (fun _ => "TESTS_PASSED") 3
    { implARuns := 1, reviewerRuns := 1, approved := true, implBRuns := 0,
      testerRuns := 1, testsPassed := true, userRuns := 1 } (by rfl)).2.2 (by decide)

/-! ## Claim C7 -/

/-- Claim C7: in `run_pipeline`, if the user verdict of iteration k + 1
is SATISFIED (and all earlier iterations were not), the outer loop
terminates right after that iteration: the recorded verdicts are
exactly k unsatisfied iterations followed by the satisfied one, no
matter how much larger `max_iterations` is.  With k = 0 this covers
termination after iteration 1. -/
theorem C7_satisfied_terminates (u : Nat → String) (n k : Nat)
    (hk : k < n)
    (hstop : ∀ j, j < k → user_satisfied (u (j + 1)) = false)
    (hsat : user_satisfied (u (k + 1)) = true) :
    outerLoop u n = List.replicate k false ++ [true] := by
  apply outerLoop_go_first_sat u k n 0 hk
  · intro j hj
    have := hstop j hj
    simpa using this
  · simpa using hsat

/-- Witness for C7_satisfied_terminates: satisfied on iteration 1 with
max_iterations 3 stops after one iteration. -/
theorem C7_satisfied_terminates_witness :
    outerLoop (fun _ => "Verdict: SATISFIED") 3 = List.replicate 0 false ++ [true] :=
  C7_satisfied_terminates (fun _ => "Verdict: SATISFIED") 3 0 (by omega)
    (fun j hj => absurd hj (Nat.not_lt_zero j)) (by decide)

/-! ## Claim C4 -/

/-- Claim C4 as stated is false on the code: with `max_iterations = 0`
no iteration runs, and line 1105 of src/supervisor.py evaluates
`all_results[-1]` on an empty list, raising IndexError before any final
report is persisted, so the run ends in neither terminal status. -/
theorem C4_counterexample :
    run_pipeline_model (fun _ => "SATISFIED") 0
      = Except.error "IndexError: list index out of range" := by
  rfl

/-- Claim C4 (amended): for every response stream and every
`max_iterations >= 1`, `run_pipeline` terminates normally in exactly one
of the two terminal statuses, COMPLETE when the last executed iteration
satisfied the user and INCOMPLETE otherwise, after between 1 and
`max_iterations` iterations, and the final report artifact is among the
persisted pipeline artifacts. -/
theorem C4_terminal_status (u : Nat → String) (n : Nat) (hn : 1 ≤ n) :
    ∃ st k arts,
      run_pipeline_model u n = Except.ok (st, k, arts) ∧
      (st = "COMPLETE" ∨ st = "INCOMPLETE") ∧
      "FINAL_REPORT.md" ∈ arts ∧
      1 ≤ k ∧ k ≤ n := by
  have hne : outerLoop u n ≠ [] := by
    cases n with
    | zero => omega
    | succ m => exact outerLoop_go_ne_nil u m 0
  have hsome : (outerLoop u n).getLast?.isSome := List.getLast?_isSome.mpr hne
  rcases Option.isSome_iff_exists.mp hsome with ⟨b, hb⟩
  refine ⟨if b then "COMPLETE" else "INCOMPLETE", (outerLoop u n).length,
          ["TASK.md", "FINAL_REPORT.md"], ?_, ?_, ?_, ?_, ?_⟩
  · simp [run_pipeline_model, hb]
  · cases b <;> simp
  · simp
  · have := List.length_pos.mpr hne
    omega
  · exact outerLoop_go_length_le u n 0

/-- Witness for C4_terminal_status: a never-satisfied run with
max_iterations 2 ends INCOMPLETE after 2 iterations with the final
report persisted. -/
theorem C4_terminal_status_witness :
    ∃ st k arts,
      run_pipeline_model (fun _ => "NEEDS_IMPROVEMENT") 2 = Except.ok (st, k, arts) ∧
      (st = "COMPLETE" ∨ st = "INCOMPLETE") ∧
      "FINAL_REPORT.md" ∈ arts ∧
      1 ≤ k ∧ k ≤ 2 :=
  C4_terminal_status (fun _ => "NEEDS_IMPROVEMENT") 2 (by omega)

/-! ## Lemmas for escalation message extraction -/

theorem splitLinesL_append_cons (rest : List Char) :
    ∀ a : List Char, '\n' ∉ a →
      splitLinesL (a ++ '\n' :: rest) = a :: splitLinesL rest := by
  intro a
  induction a with
  | nil => intro _; simp [splitLinesL]
  | cons c cs ih =>
    intro h
    have hc : ¬ c = '\n' := fun hc => h (by simp [hc])
    have hcs : '\n' ∉ cs := fun hm => h (List.mem_cons_of_mem c hm)
    rw [List.cons_append]
    simp only [splitLinesL, if_neg hc, ih hcs]

/-! ## Claim C5 -/

/-- Claim C5 as stated is false on the code: the break of the capture
loop happens after the blank line has already been appended
(src/supervisor.py lines 956-958), so the joined message carries a
trailing newline and is not exactly the marker line. -/
theorem C5_counterexample :
    check_for_escalation "BLOCKED: missing API credentials\n\nPlease also update the docs."
      = some "BLOCKED: missing API credentials\n" ∧
    ("BLOCKED: missing API credentials\n" : String) ≠ "BLOCKED: missing API credentials" := by
  constructor
  · decide
  · decide

set_option maxRecDepth 40000 in
/-- Claim C5 (amended): for output consisting of the line `BLOCKED:
missing API credentials`, a blank line, and then any trailing text,
escalation detection fires and the extracted message is the marker line
followed by a single newline (the captured terminating blank line); the
trailing unrelated text is excluded. -/
theorem C5_escalation_message (t : String) :
    check_for_escalation ("BLOCKED: missing API credentials\n\n" ++ t)
      = some "BLOCKED: missing API credentials\n" := by
  have hgate : escalation_markers.any
      (fun m => pyContains (pyUpper ("BLOCKED: missing API credentials\n\n" ++ t)) m)
        = true := by
    apply List.any_eq_true.mpr
    refine ⟨"BLOCKED:", by decide, ?_⟩
    simp only [pyContains]
    have hup : (pyUpper ("BLOCKED: missing API credentials\n\n" ++ t)).data
        = "BLOCKED: MISSING API CREDENTIALS\n\n".data ++ t.data.map Char.toUpper := by
      show ("BLOCKED: missing API credentials\n\n" ++ t).data.map Char.toUpper = _
      rw [string_data_append, List.map_append]
      exact congrArg (fun x => x ++ t.data.map Char.toUpper) (by decide)
    rw [hup]
    apply subOccurs_append_left
    decide
  simp only [check_for_escalation, if_pos hgate]
  have hsplit : pySplitLines ("BLOCKED: missing API credentials\n\n" ++ t)
      = "BLOCKED: missing API credentials" :: "" ::
          (splitLinesL t.data).map (fun l => { data := l }) := by
    show (splitLinesL ("BLOCKED: missing API credentials\n\n" ++ t).data).map _ = _
    have hdata : ("BLOCKED: missing API credentials\n\n" ++ t).data
        = "BLOCKED: missing API credentials".data ++ '\n' :: ('\n' :: t.data) := by
      rw [string_data_append,
        show ("BLOCKED: missing API credentials\n\n" : String).data
          = "BLOCKED: missing API credentials".data ++ ['\n', '\n'] from by decide,
        List.append_assoc]
      rfl
    rw [hdata, splitLinesL_append_cons _ _ (by decide)]
    rw [show splitLinesL ('\n' :: t.data) = [] :: splitLinesL t.data from by
      simp [splitLinesL]]
    rfl
  rw [hsplit]
  have hmark : lineHasMarker "BLOCKED: missing API credentials" = true := by decide
  have hblank1 : pyIsBlank "BLOCKED: missing API credentials" = false := by decide
  simp only [scanFor, if_pos hmark]
  rw [show captureFrom
        ("BLOCKED: missing API credentials" :: "" ::
          (splitLinesL t.data).map (fun l => { data := l })) []
      = captureFrom ("" :: (splitLinesL t.data).map (fun l => { data := l }))
          ([] ++ ["BLOCKED: missing API credentials"]) from by
    simp only [captureFrom]
    rw [if_neg (by simp [hblank1])]]
  simp only [captureFrom]
  rw [if_pos ⟨by decide, by decide⟩]
  decide

/-! ## Lemmas about the git content-map model -/

theorem lookupFM_append_some {a : List (String × String)} (b : List (String × String))
    {k v : String} (h : lookupFM a k = some v) :
    lookupFM (a ++ b) k = some v := by
  induction a with
  | nil => simp [lookupFM] at h
  | cons e rest ih =>
    by_cases he : e.1 = k
    · simp only [lookupFM, if_pos he] at h
      simp only [List.cons_append, lookupFM, if_pos he]
      exact h
    · simp only [lookupFM, if_neg he] at h
      simp only [List.cons_append, lookupFM, if_neg he]
      exact ih h

theorem lookupFM_append_none {a : List (String × String)} (b : List (String × String))
    {k : String} (h : lookupFM a k = none) :
    lookupFM (a ++ b) k = lookupFM b k := by
  induction a with
  | nil => simp
  | cons e rest ih =>
    by_cases he : e.1 = k
    · simp only [lookupFM, if_pos he] at h
      exact absurd h (by simp)
    · simp only [lookupFM, if_neg he] at h
      simp only [List.cons_append, lookupFM, if_neg he]
      exact ih h

theorem lookupFM_filter (p : String → Bool) (m : List (String × String)) (k : String) :
    lookupFM (m.filter (fun e => p e.1)) k
      = if p k = true then lookupFM m k else none := by
  induction m with
  | nil => simp [lookupFM]
  | cons e rest ih =>
    by_cases he : e.1 = k
    · subst he
      by_cases hp : p e.1 = true
      · simp [List.filter_cons, hp, lookupFM, ih]
      · simp [List.filter_cons, hp, lookupFM, ih]
    · by_cases hp : p e.1 = true
      · simp [List.filter_cons, hp, lookupFM, he, ih]
      · simp [List.filter_cons, hp, lookupFM, he, ih]

theorem lookupFM_eq_none_of_not_mem {a : List (String × String)} {k : String}
    (h : ¬ k ∈ a.map Prod.fst) : lookupFM a k = none := by
  induction a with
  | nil => rfl
  | cons e rest ih =>
    simp only [List.map_cons, List.mem_cons] at h
    push_neg at h
    have he : ¬ e.1 = k := fun hh => h.1 hh.symm
    simp only [lookupFM, if_neg he]
    exact ih h.2

theorem mapsEqB_eq_true_iff (a b : List (String × String)) :
    mapsEqB a b = true ↔ ∀ k, lookupFM a k = lookupFM b k := by
  constructor
  · intro h k
    simp only [mapsEqB, List.all_eq_true] at h
    by_cases hk : k ∈ a.map Prod.fst ++ b.map Prod.fst
    · have hb := h k hk
      exact eq_of_beq hb
    · rw [List.mem_append] at hk
      push_neg at hk
      rw [lookupFM_eq_none_of_not_mem hk.1, lookupFM_eq_none_of_not_mem hk.2]
  · intro h
    simp only [mapsEqB, List.all_eq_true]
    intro k _
    exact beq_iff_eq.mpr (h k)

theorem stageUnder_lookup (dir : String) (r : Repo) (k : String) :
    lookupFM (stageUnder dir r).index k
      = if underDir dir k = true then lookupFM r.worktree k
        else lookupFM r.index k := by
  simp only [stageUnder]
  by_cases hu : underDir dir k = true
  · rw [if_pos hu]
    have h1 : lookupFM (r.index.filter (fun e => !(underDir dir e.1))) k = none := by
      rw [lookupFM_filter (fun s => !(underDir dir s)) r.index k]
      simp [hu]
    rw [lookupFM_append_none _ h1,
        lookupFM_filter (fun s => underDir dir s) r.worktree k, if_pos hu]
  · rw [if_neg hu]
    have hu3 : underDir dir k = false := by
      revert hu; cases underDir dir k <;> simp
    have hu2 : (!(underDir dir k)) = true := by rw [hu3]; rfl
    cases hx : lookupFM r.index k with
    | some v =>
      have h1 : lookupFM (r.index.filter (fun e => !(underDir dir e.1))) k = some v := by
        rw [lookupFM_filter (fun s => !(underDir dir s)) r.index k, if_pos hu2, hx]
      rw [lookupFM_append_some _ h1]
    | none =>
      have h1 : lookupFM (r.index.filter (fun e => !(underDir dir e.1))) k = none := by
        rw [lookupFM_filter (fun s => !(underDir dir s)) r.index k, if_pos hu2, hx]
      rw [lookupFM_append_none _ h1,
          lookupFM_filter (fun s => underDir dir s) r.worktree k, if_neg hu]

/-! ## Claim C8 -/

/-- Claim C8: the checkpoint commit operations are no-ops exactly when
nothing changed.  For `git_commit` with `git add -A`: when every path has
the same content in the worktree as at HEAD, it returns false and the
commit log is unchanged; otherwise it returns true, appends the message
to the log, and the new HEAD snapshot is the worktree.  For
`commit_agent_work` (staging only the role subdirectory), under a clean
staging area outside that subdirectory: when every path under the role
subdirectory agrees with HEAD it returns false with the log unchanged;
otherwise it commits the role-tagged message and returns true. -/
theorem C8_commit_noop (r : Repo) (role msg : String) :
    ((∀ k, lookupFM r.worktree k = lookupFM r.head k) →
      (git_commit msg none r).1 = false ∧
      ((git_commit msg none r).2).log = r.log) ∧
    ((¬ ∀ k, lookupFM r.worktree k = lookupFM r.head k) →
      (git_commit msg none r).1 = true ∧
      ((git_commit msg none r).2).log = r.log ++ [msg] ∧
      ((git_commit msg none r).2).head = r.worktree) ∧
    ((∀ k, underDir (role ++ "/") k = false →
        lookupFM r.index k = lookupFM r.head k) →
      ((∀ k, underDir (role ++ "/") k = true →
          lookupFM r.worktree k = lookupFM r.head k) →
        (commit_agent_work role msg r).1 = false ∧
        ((commit_agent_work role msg r).2).log = r.log) ∧
      ((¬ ∀ k, underDir (role ++ "/") k = true →
          lookupFM r.worktree k = lookupFM r.head k) →
        (commit_agent_work role msg r).1 = true ∧
        ((commit_agent_work role msg r).2).log
          = r.log ++ ["[" ++ role ++ "] " ++ msg])) := by
  refine ⟨?_, ?_, ?_⟩
  · intro h
    have hb : mapsEqB r.worktree r.head = true := (mapsEqB_eq_true_iff _ _).mpr h
    simp [git_commit, stageAll, hb]
  · intro h
    have hb : mapsEqB r.worktree r.head = false := by
      cases hmb : mapsEqB r.worktree r.head with
      | true => exact absurd ((mapsEqB_eq_true_iff _ _).mp hmb) h
      | false => rfl
    simp [git_commit, stageAll, hb]
  · intro hclean
    have key : mapsEqB (stageUnder (role ++ "/") r).index r.head = true ↔
        (∀ k, underDir (role ++ "/") k = true →
          lookupFM r.worktree k = lookupFM r.head k) := by
      rw [mapsEqB_eq_true_iff]
      constructor
      · intro hall k hk
        have hx := hall k
        rw [stageUnder_lookup, if_pos hk] at hx
        exact hx
      · intro hres k
        rw [stageUnder_lookup]
        by_cases hk : underDir (role ++ "/") k = true
        · rw [if_pos hk]; exact hres k hk
        · rw [if_neg hk]
          have hk2 : underDir (role ++ "/") k = false := by
            revert hk; cases underDir (role ++ "/") k <;> simp
          exact hclean k hk2
    constructor
    · intro h
      have hb : mapsEqB (stageUnder (role ++ "/") r).index r.head = true := key.mpr h
      simp only [commit_agent_work]
      rw [show (stageUnder (role ++ "/") r).head = r.head from rfl, if_pos hb]
      exact ⟨rfl, rfl⟩
    · intro h
      have hb : mapsEqB (stageUnder (role ++ "/") r).index r.head = false := by
        cases hmb : mapsEqB (stageUnder (role ++ "/") r).index r.head with
        | true => exact absurd (key.mp hmb) h
        | false => rfl
      simp only [commit_agent_work]
      rw [show (stageUnder (role ++ "/") r).head = r.head from rfl]
      rw [if_neg (by simp [hb])]
      exact ⟨rfl, rfl⟩

/-- Witness for C8_commit_noop: a repository whose worktree equals HEAD
yields a no-op commit with an unchanged log. -/
theorem C8_commit_noop_witness :
    (git_commit "checkpoint" none
        { head := [("PLAN.md", "v1")], index := [("PLAN.md", "v1")],
          worktree := [("PLAN.md", "v1")], log := ["init"] }).1 = false ∧
    ((git_commit "checkpoint" none
        { head := [("PLAN.md", "v1")], index := [("PLAN.md", "v1")],
          worktree := [("PLAN.md", "v1")], log := ["init"] }).2).log = ["init"] := by
  have h := (C8_commit_noop
    { head := [("PLAN.md", "v1")], index := [("PLAN.md", "v1")],
      worktree := [("PLAN.md", "v1")], log := ["init"] } "planner" "checkpoint").1
  exact h (fun k => rfl)
